import Mathlib

set_option autoImplicit false
set_option maxRecDepth 8000

/- Shallow embedding of the news_scraper repository (collector.py, scraper.py,
   sources.py).  Python strings are Lean String values, Python exceptions are
   the explicit PyError type below, fallible code returns Option or Except,
   and the filesystem and network are passed around as explicit state:
   the content cache and the failed-href logs are maps from file path to
   contents, the network is the list of successive responses the origin
   would return to repeated GET requests for one URL. -/

/-- Kinds of Python exception raised by the embedded code. -/
inductive PyError
  | typeError
  | attributeError
  | unsupportedOperation
  | transportError
deriving DecidableEq

/-- Index of the first occurrence of pat inside a character list, leftmost
    match, as Python str.find computes it. -/
def findSub (pat : List Char) : List Char → Option Nat
  | [] => if pat = [] then some 0 else none
  | c :: s => if pat.isPrefixOf (c :: s) then some 0 else (findSub pat s).map (· + 1)

/-- Python: pat in s. -/
def strContains (s pat : String) : Bool :=
  (findSub pat.data s.data).isSome

/-- Python: s.find(pat); index of the leftmost occurrence, -1 when absent. -/
def pyFind (s pat : String) : Int :=
  match findSub pat.data s.data with
  | some n => (n : Int)
  | none => -1

/-- Python min(list, key = k): the first element of the list attaining the
    minimal key; ValueError on the empty list, modelled as none. -/
def minByKey {α : Type} (key : α → Int) : List α → Option α
  | [] => none
  | x :: xs =>
    match minByKey key xs with
    | none => some x
    | some m => if key x ≤ key m then some x else some m

/-- Python str.join(sep) over a list whose items may be None: joining raises
    TypeError unless every item is a genuine string. -/
def pyJoin (sep : String) (items : List (Option String)) : Except PyError String :=
  if items.all (fun o => o.isSome) then
    Except.ok (String.intercalate sep (items.filterMap id))
  else
    Except.error PyError.typeError

namespace Source

/-- scraper.py Source.choose_parser (Lean name chooseParser): restrict the
    rule list to the rules whose identifier is a substring of the href and
    take the min by key href.find(identifier); the ValueError raised by min
    on an empty candidate list is caught and None is returned. -/
def chooseParser {α : Type} (parser_list : List (String × α)) (href : String) : Option α :=
  match minByKey (fun p => pyFind href p.1) (parser_list.filter (fun p => strContains href p.1)) with
  | none => none
  | some p => some p.2

end Source

/-- One item of a per-source article stream: the (href, article) pair the
    stream yields.  Modelled from the spec: Source.article_stream is invoked
    by collector.py but absent from the supplied sources.py; per the spec a
    per-source cursor yields parsed articles in link-discovery order and
    signals exhaustion (StopIteration) at the end, so a stream is a finite
    list of (href, article) pairs. -/
abbrev Item := String × String

namespace Collector

/-- One pass of the for-loop inside Collector.article_stream over the live
    streams: visit each stream in order, pull one item, skip the item when
    its href is falsy, otherwise yield the article text.  Pulling from an
    exhausted stream raises StopIteration, whose handler evaluates the
    undefined name s (the comprehension variable does not leak in Python 3)
    and therefore raises NameError, aborting the pass: result none, keeping
    the articles yielded earlier in the pass. -/
def collectorPass : List (List Item) → List String × Option (List (List Item))
  | [] => ([], some [])
  | [] :: _ => ([], none)
  | ((href, article) :: s) :: rest =>
    let r := collectorPass rest
    (if href = "" then r.1 else article :: r.1, r.2.map (fun ss => s :: ss))

/-- Collector.article_stream driven for at most fuel passes of the while
    loop: returns the articles yielded and true when the generator ended by
    raising NameError, false when the fuel ran out first. -/
def collectorRun : Nat → List (List Item) → List String × Bool
  | 0, _ => ([], false)
  | fuel + 1, streams =>
    match collectorPass streams with
    | (ys, none) => (ys, true)
    | (ys, some streams2) =>
      let r := collectorRun fuel streams2
      (ys ++ r.1, r.2)

/-- Round-robin interleaving of three lists, one element from each per
    round, stopping when any list runs out. -/
def interleave3 : List String → List String → List String → List String
  | a :: as, b :: bs, c :: cs => a :: b :: c :: interleave3 as bs cs
  | _, _, _ => []

end Collector

/-- An HTTP response as the fetch loop observes it. -/
structure Response where
  status_code : Nat
  text : String
deriving DecidableEq

/-- Observable actions of the fetch loop on the outside world. -/
inductive NetEvent
  | get (href userAgent : String)
  | sleep (seconds : Nat)
deriving DecidableEq

namespace BaseArticleParser

/-- The cache file path of a URL, scraper.py f-string
    .content_cache/id.html; get_cache_id (the md5 hexdigest of the href) is
    the abstract parameter cacheId. -/
def cache_loc (cacheId : String → String) (href : String) : String :=
  ".content_cache/" ++ cacheId href ++ ".html"

/-- scraper.py BaseArticleParser._check_cache_for_content: the cache file
    must exist and have size strictly greater than zero, in which case its
    contents are returned; otherwise None.  The filesystem is the map fs
    from path to contents of the existing files. -/
def check_cache_for_content (cacheId : String → String) (fs : String → Option String) (href : String) : Option String :=
  match fs (cache_loc cacheId href) with
  | some content => if content.length > 0 then some content else none
  | none => none

/-- scraper.py BaseArticleParser._cache_content: open the cache file in
    mode w+ and write the content (overwrite semantics). -/
def cache_content (cacheId : String → String) (fs : String → Option String) (href content : String) : String → Option String :=
  fun path => if path = cache_loc cacheId href then some content else fs path

/-- The while loop of get_soup: each iteration builds a header with a fresh
    user agent (uas i is the i-th value ua.random produces), issues a GET,
    sleeps 5, and re-tests the condition; the loop exits once a response
    with status code 200 has been observed.  net lists the successive
    responses of the origin; if none of them has status 200 the loop is
    still running after net.length attempts (result none). -/
def retryLoop (href : String) (uas : Nat → String) : Nat → List Response → Option (Response × List NetEvent)
  | _, [] => none
  | i, r :: rest =>
    if r.status_code = 200 then
      some (r, [NetEvent.get href (uas i), NetEvent.sleep 5])
    else
      (retryLoop href uas (i + 1) rest).map
        (fun p => (p.1, NetEvent.get href (uas i) :: NetEvent.sleep 5 :: p.2))

/-- The event trace of n consecutive fetch attempts starting at attempt
    index i: GET with the fresh user agent uas j, then sleep 5, for
    j = i, ..., i + n - 1. -/
def attemptTraceFrom (href : String) (uas : Nat → String) : Nat → Nat → List NetEvent
  | _, 0 => []
  | i, n + 1 => NetEvent.get href (uas i) :: NetEvent.sleep 5 :: attemptTraceFrom href uas (i + 1) n

/-- The cache-miss branch of get_soup: run the retry loop, persist the body
    of the successful response via _cache_content, and return the body, the
    updated filesystem and the network events in order. -/
def fetch_and_cache (cacheId : String → String) (uas : Nat → String) (net : List Response) (fs : String → Option String) (href : String) :
    Option (String × (String → Option String) × List NetEvent) :=
  match retryLoop href uas 0 net with
  | none => none
  | some (r, evs) => some (r.text, cache_content cacheId fs href r.text, evs)

/-- scraper.py BaseArticleParser.get_soup.  BeautifulSoup construction is an
    external collaborator, so the soup is represented by the raw content
    string handed to it.  Returns the content, the filesystem after the
    call, and the network events performed; none when the retry loop never
    observes a 200 response within net. -/
def get_soup (cacheId : String → String) (uas : Nat → String) (net : List Response) (fs : String → Option String) (href : String) :
    Option (String × (String → Option String) × List NetEvent) :=
  match check_cache_for_content cacheId fs href with
  | none => fetch_and_cache cacheId uas net fs href
  | some content => some (content, fs, [])

end BaseArticleParser

/-- A matched HTML element as BeautifulSoup hands it to the extractors:
    its text, and the texts of the paragraph elements found inside it. -/
structure Element where
  text : String
  paragraphs : List String
deriving DecidableEq

/-- The parsed document, from the viewpoint of the extraction code: find
    maps a tag name and a class attribute to the matching element, if any. -/
structure Soup where
  find : String → String → Option Element

namespace BBCArticleParser

/-- scraper.py BBCArticleParser.get_title: look for the story-body h1, fall
    back to the cta span, and return the text when an element was found,
    None otherwise. -/
def get_title (soup : Soup) : Option String :=
  match soup.find ("h1") ("story-body__h1") with
  | some e => some e.text
  | none =>
    match soup.find ("span") ("cta") with
    | some e => some e.text
    | none => none

/-- scraper.py BBCArticleParser.get_paragraphs: findAll on the body
    container; when the container div is absent, the findAll call on None
    raises AttributeError. -/
def get_paragraphs (soup : Soup) : Except PyError (List String) :=
  match soup.find ("div") ("story-body__inner") with
  | none => Except.error PyError.attributeError
  | some e => Except.ok e.paragraphs

/-- BaseArticleParser.parse after get_soup has produced the document:
    the single space join of [get_title(soup)] + get_paragraphs(soup).
    get_title is evaluated first but never raises; a missing body container
    raises AttributeError out of get_paragraphs, and a None title makes the
    join raise TypeError. -/
def parse_soup (soup : Soup) : Except PyError String :=
  match get_paragraphs soup with
  | Except.error e => Except.error e
  | Except.ok ps => pyJoin (" ") (get_title soup :: ps.map some)

end BBCArticleParser

namespace Source

/-- scraper.py Source.parse_article: choose a parser for the href, then call
    parser.parse(href) inside try/except Exception; every exception,
    including the AttributeError raised when choose_parser returned None, is
    caught and None is returned.  The behaviour of each concrete parser on
    each href is the argument pbehave. -/
def parse_article {α : Type} (parser_list : List (String × α)) (pbehave : α → String → Except PyError String) (href : String) : Option String :=
  match chooseParser parser_list href with
  | none => none
  | some p =>
    match pbehave p href with
    | Except.ok a => some a
    | Except.error _ => none

/-- The blacklist test of fetch_new, any(x for x in blacklist if x in href):
    true when some entry is a substring of the href and is itself truthy,
    i.e. a nonempty string. -/
def blacklisted (blacklist : List String) (href : String) : Bool :=
  blacklist.any (fun x => strContains href x && !(x == ""))

/-- The per-source failed-href log path, .failed_hrefs/name. -/
def log_path (name : String) : String :=
  ".failed_hrefs/" ++ name

/-- scraper.py Source._write_erroneous_article_hrefs: open the per-source
    log in append mode and write one line per href.  The logs are a map
    from path to the list of lines already in the file. -/
def write_erroneous_article_hrefs (name : String) (hrefs : List String) (logs : String → List String) : String → List String :=
  fun path => if path = log_path name then logs path ++ hrefs else logs path

/-- The body of the for-loop of fetch_new: skip blacklisted hrefs, append a
    successfully parsed article to the first component, append the href of
    a failed parse to the second. -/
def fetch_step {α : Type} (parser_list : List (String × α)) (pbehave : α → String → Except PyError String) (blacklist : List String)
    (acc : List String × List String) (href : String) : List String × List String :=
  if blacklisted blacklist href then acc
  else
    match parse_article parser_list pbehave href with
    | some a => (acc.1 ++ [a], acc.2)
    | none => (acc.1, acc.2 ++ [href])

/-- scraper.py Source.fetch_new: get_hrefs is called first and a transport
    failure there propagates; every candidate href is then processed by the
    loop, and the collected failed hrefs are appended to the per-source
    log.  Returns the article list and the updated logs. -/
def fetch_new {α : Type} (parser_list : List (String × α)) (pbehave : α → String → Except PyError String)
    (blacklist : List String) (name : String) (get_hrefs : Except PyError (List String)) (logs : String → List String) :
    Except PyError (List String × (String → List String)) :=
  match get_hrefs with
  | Except.error e => Except.error e
  | Except.ok hrefs =>
    let acc := hrefs.foldl (fetch_step parser_list pbehave blacklist) ([], [])
    Except.ok (acc.1, write_erroneous_article_hrefs name acc.2 logs)

/-- Python io semantics for reading from an open file handle: a handle
    opened in append mode a is write-only, and calling read() on it raises
    io.UnsupportedOperation; the readable text modes return the contents. -/
def fileRead (mode : String) (contents : String) : Except PyError String :=
  if mode == "r" || mode == "r+" || mode == "w+" || mode == "a+" then
    Except.ok contents
  else
    Except.error PyError.unsupportedOperation

/-- Source._read_erroneous_article_hrefs: open the per-source log with mode
    a and call read() on that handle, then split on newlines. -/
def read_erroneous_article_hrefs (name : String) (logs : String → List String) : Except PyError (List String) :=
  match fileRead ("a") (String.intercalate ("\n") (logs (log_path name))) with
  | Except.error e => Except.error e
  | Except.ok s => Except.ok (s.splitOn ("\n"))

end Source

/- Shared concrete inputs used by witnesses and counterexamples. -/

/-- A cache id function for concrete runs: every href hashes to k. -/
def cid0 : String → String := fun _ => "k"

/-- A user agent stream for concrete runs: ua.random always yields agent. -/
def ua0 : Nat → String := fun _ => "agent"

/-- The empty filesystem: no cache file exists. -/
def fsNone : String → Option String := fun _ => none

/-- A filesystem on which every path is a zero-size file. -/
def fsZero : String → Option String := fun _ => some ("")

/- Helper lemmas about minByKey, the embedding of Python min with key. -/

theorem minByKey_nil_eq_none {α : Type} (key : α → Int) : minByKey key [] = none := rfl

theorem minByKey_cons_ne_none {α : Type} (key : α → Int) (x : α) (xs : List α) :
    minByKey key (x :: xs) ≠ none := by
  simp only [minByKey]
  cases h : minByKey key xs with
  | none => simp
  | some m => by_cases hk : key x ≤ key m <;> simp [hk]

/-- minByKey returns the first element attaining the minimal key: the list
    splits around the returned element, everything before it has strictly
    larger key, and nothing anywhere has a smaller key. -/
theorem minByKey_first_min {α : Type} (key : α → Int) :
    ∀ (l : List α) (m : α), minByKey key l = some m →
      ∃ pre post, l = pre ++ m :: post
        ∧ (∀ y ∈ pre, key m < key y)
        ∧ (∀ y ∈ l, key m ≤ key y) := by
  intro l
  induction l with
  | nil => intro m h; exact absurd h (by simp [minByKey])
  | cons x xs ih =>
    intro m h
    cases hxs : minByKey key xs with
    | none =>
      have hnil : xs = [] := by
        cases xs with
        | nil => rfl
        | cons y ys => exact absurd hxs (minByKey_cons_ne_none key y ys)
      subst hnil
      simp only [minByKey, Option.some.injEq] at h
      subst h
      exact ⟨[], [], rfl, by simp, by simp⟩
    | some mx =>
      simp only [minByKey, hxs] at h
      by_cases hk : key x ≤ key mx
      · rw [if_pos hk] at h
        injection h with h
        subst h
        obtain ⟨pre0, post0, _, _, hall⟩ := ih mx hxs
        refine ⟨[], xs, rfl, by simp, ?_⟩
        intro y hy
        rcases List.mem_cons.mp hy with hy | hy
        · subst hy; exact le_refl _
        · exact le_trans hk (hall y hy)
      · rw [if_neg hk] at h
        injection h with h
        subst h
        obtain ⟨pre, post, heq, hpre, hall⟩ := ih mx hxs
        have hlt : key mx < key x := lt_of_not_le hk
        refine ⟨x :: pre, post, by rw [heq, List.cons_append], ?_, ?_⟩
        · intro y hy
          rcases List.mem_cons.mp hy with hy | hy
          · subst hy; exact hlt
          · exact hpre y hy
        · intro y hy
          rcases List.mem_cons.mp hy with hy | hy
          · subst hy; exact le_of_lt hlt
          · exact hall y hy

/-- C1: counterexample.  The claim says the rule whose identifier occurs at
    the latest (rightmost) position wins, and in particular that the URL
    https://site/news/sport/123 resolves to P2 under the rules
    (site/news/, P1), (site/news/sport/, P2).  The code takes the min of
    href.find over the matching rules, i.e. the earliest occurrence, with
    ties resolved in favour of the rule listed first: both example URLs
    resolve to P1 (here 1), not P2 (here 2). -/
theorem chooseParser_rightmost_counterexample :
    Source.chooseParser [(("site/news/"), 1), (("site/news/sport/"), 2)] ("https://site/news/sport/123") = some 1
    ∧ Source.chooseParser [(("site/news/"), 1), (("site/news/sport/"), 2)] ("https://site/news/politics/1") = some 1
    ∧ (some 1 : Option Nat) ≠ some 2 := by
  refine ⟨by decide, by decide, by decide⟩

/-- C1 (amended): among all rules whose identifier substring occurs in the
    URL, Source.choose_parser selects the first-listed rule whose identifier
    occurs at the earliest (leftmost) position in the URL string: the chosen
    parser belongs to a matching rule whose find-position is minimal, and
    every matching rule listed before it has a strictly larger
    find-position.  In particular both example URLs resolve to P1. -/
theorem chooseParser_earliest_match {α : Type} (parser_list : List (String × α)) (href : String) (p : α)
    (h : Source.chooseParser parser_list href = some p) :
    ∃ pre q post,
      parser_list.filter (fun r => strContains href r.1) = pre ++ q :: post
      ∧ q.2 = p
      ∧ (∀ r ∈ parser_list.filter (fun r => strContains href r.1), pyFind href q.1 ≤ pyFind href r.1)
      ∧ (∀ r ∈ pre, pyFind href q.1 < pyFind href r.1) := by
  unfold Source.chooseParser at h
  cases hmin : minByKey (fun p => pyFind href p.1) (parser_list.filter (fun p => strContains href p.1)) with
  | none => rw [hmin] at h; exact absurd h (by simp)
  | some q =>
    rw [hmin] at h
    injection h with h
    obtain ⟨pre, post, heq, hpre, hall⟩ := minByKey_first_min _ _ q hmin
    exact ⟨pre, q, post, heq, h, fun r hr => hall r hr, fun r hr => hpre r hr⟩

/-- Witness for chooseParser_earliest_match at a concrete rule list. -/
theorem chooseParser_earliest_match_witness :
    ∃ pre q post,
      ([(("ab"), 1), (("b"), 2)] : List (String × Nat)).filter (fun r => strContains ("xaby") r.1) = pre ++ q :: post
      ∧ q.2 = 1
      ∧ (∀ r ∈ ([(("ab"), 1), (("b"), 2)] : List (String × Nat)).filter (fun r => strContains ("xaby") r.1),
          pyFind ("xaby") q.1 ≤ pyFind ("xaby") r.1)
      ∧ (∀ r ∈ pre, pyFind ("xaby") q.1 < pyFind ("xaby") r.1) :=
  chooseParser_earliest_match [(("ab"), 1), (("b"), 2)] ("xaby") 1 (by decide)

/-- One unfolding step of collectorRun when the pass completes without
    hitting an exhausted stream. -/
theorem collectorRun_succ_of_pass (fuel : Nat) (streams : List (List Item)) (ys : List String)
    (streams2 : List (List Item)) (h : Collector.collectorPass streams = (ys, some streams2)) :
    Collector.collectorRun (fuel + 1) streams =
      (ys ++ (Collector.collectorRun fuel streams2).1, (Collector.collectorRun fuel streams2).2) := by
  simp only [Collector.collectorRun, h]

/-- C2: for three per-source streams A, B, C each holding k articles with no
    failures (every href truthy), Collector.article_stream yields the
    articles in the round-robin interleaved order A1, B1, C1, ..., Ak, Bk,
    Ck, visiting the live streams in the fixed order the sources were
    supplied and taking exactly one article from each per pass. -/
theorem collector_round_robin :
    ∀ (k : Nat) (A B C : List Item),
      A.length = k → B.length = k → C.length = k →
      (∀ it ∈ A, it.1 ≠ "") → (∀ it ∈ B, it.1 ≠ "") → (∀ it ∈ C, it.1 ≠ "") →
      (Collector.collectorRun (k + 1) [A, B, C]).1 =
        Collector.interleave3 (A.map Prod.snd) (B.map Prod.snd) (C.map Prod.snd) := by
  intro k
  induction k with
  | zero =>
    intro A B C hA hB hC _ _ _
    rw [List.length_eq_zero] at hA hB hC
    subst hA; subst hB; subst hC
    rfl
  | succ k ih =>
    intro A B C hA hB hC hfA hfB hfC
    cases A with
    | nil => exact absurd hA (by simp)
    | cons a as =>
      cases B with
      | nil => exact absurd hB (by simp)
      | cons b bs =>
        cases C with
        | nil => exact absurd hC (by simp)
        | cons c cs =>
          obtain ⟨ah, aa⟩ := a
          obtain ⟨bh, ba⟩ := b
          obtain ⟨ch, ca⟩ := c
          have ha : ah ≠ "" := hfA (ah, aa) (List.mem_cons_self _ _)
          have hb : bh ≠ "" := hfB (bh, ba) (List.mem_cons_self _ _)
          have hc : ch ≠ "" := hfC (ch, ca) (List.mem_cons_self _ _)
          have hpass :
              Collector.collectorPass [(ah, aa) :: as, (bh, ba) :: bs, (ch, ca) :: cs] =
                ([aa, ba, ca], some [as, bs, cs]) := by
            simp [Collector.collectorPass, ha, hb, hc]
          have hrec :
              (Collector.collectorRun (k + 1) [as, bs, cs]).1 =
                Collector.interleave3 (as.map Prod.snd) (bs.map Prod.snd) (cs.map Prod.snd) :=
            ih as bs cs (by simpa using hA) (by simpa using hB) (by simpa using hC)
              (fun it hit => hfA it (List.mem_cons_of_mem _ hit))
              (fun it hit => hfB it (List.mem_cons_of_mem _ hit))
              (fun it hit => hfC it (List.mem_cons_of_mem _ hit))
          rw [collectorRun_succ_of_pass (k + 1) _ _ _ hpass]
          simp [hrec, Collector.interleave3]

/-- Witness for collector_round_robin with one article per source. -/
theorem collector_round_robin_witness :
    (Collector.collectorRun 2 [[(("u1"), ("a1"))], [(("u2"), ("b1"))], [(("u3"), ("c1"))]]).1 =
      Collector.interleave3 ([(("u1"), ("a1"))].map Prod.snd) ([(("u2"), ("b1"))].map Prod.snd)
        ([(("u3"), ("c1"))].map Prod.snd) :=
  collector_round_robin 1 [(("u1"), ("a1"))] [(("u2"), ("b1"))] [(("u3"), ("c1"))]
    rfl rfl rfl (by decide) (by decide) (by decide)

/-- C3: code bug.  The claim (and the spec) says an exhausted stream is
    removed from the live set and the combined stream ends normally once all
    are exhausted; but the except StopIteration handler executes
    streams.remove(s) where s is undefined (a Python 3 comprehension
    variable does not leak into the enclosing scope), so the first
    exhaustion raises NameError instead.  With A and C holding five articles
    and B two, the stream yields A1, B1, C1, A2, B2, C2, A3 and then dies
    with NameError (outcome true in the model): B is never removed, C3-C5
    and A4-A5 are never yielded, and the stream never terminates normally. -/
theorem collector_exhaustion_raises :
    Collector.collectorRun 10
      [[(("a"), ("A1")), (("a"), ("A2")), (("a"), ("A3")), (("a"), ("A4")), (("a"), ("A5"))],
       [(("b"), ("B1")), (("b"), ("B2"))],
       [(("c"), ("C1")), (("c"), ("C2")), (("c"), ("C3")), (("c"), ("C4")), (("c"), ("C5"))]] =
      (["A1", "B1", "C1", "A2", "B2", "C2", "A3"], true) := by decide

/-- C9: items pulled with a falsy (empty) href are skipped silently, nothing
    is yielded for that position even when the article text is non-empty,
    and every yielded item is the article text alone with the href
    discarded: a run over one stream yields exactly the article components
    of the items whose href is non-empty, in order. -/
theorem collector_skips_falsy_href :
    ∀ (s : List Item),
      (Collector.collectorRun (s.length + 1) [s]).1 =
        (s.filter (fun it => it.1 != "")).map Prod.snd := by
  intro s
  induction s with
  | nil => rfl
  | cons it s ih =>
    obtain ⟨h, a⟩ := it
    by_cases hh : h = ""
    · subst hh
      have hpass : Collector.collectorPass [("", a) :: s] = ([], some [s]) := by
        simp [Collector.collectorPass]
      rw [List.length_cons, collectorRun_succ_of_pass (s.length + 1) _ _ _ hpass]
      simp [ih]
    · have hpass : Collector.collectorPass [(h, a) :: s] = ([a], some [s]) := by
        simp [Collector.collectorPass, hh]
      rw [List.length_cons, collectorRun_succ_of_pass (s.length + 1) _ _ _ hpass]
      simp [hh, ih]

/-- Witness for collector_skips_falsy_href on a stream with one falsy item. -/
theorem collector_skips_falsy_href_witness :
    (Collector.collectorRun ([(("u"), ("a1")), ((""), ("a2")), (("w"), ("a3"))].length + 1)
        [[(("u"), ("a1")), ((""), ("a2")), (("w"), ("a3"))]]).1 =
      ([(("u"), ("a1")), ((""), ("a2")), (("w"), ("a3"))].filter (fun it => it.1 != "")).map Prod.snd :=
  collector_skips_falsy_href [(("u"), ("a1")), ((""), ("a2")), (("w"), ("a3"))]

/- Helper lemmas about the fetch and cache layer. -/

theorem string_length_pos_iff (s : String) : 0 < s.length ↔ s ≠ "" := by
  constructor
  · intro h hs
    subst hs
    exact absurd h (by decide)
  · intro h
    rcases Nat.eq_zero_or_pos s.length with h0 | hpos
    · exact absurd (by
        cases s with
        | mk data =>
          cases data with
          | nil => rfl
          | cons c cs => exact absurd h0 (by simp [String.length])) h
    · exact hpos

/-- The valid-entry characterization of _check_cache_for_content: it returns
    content exactly when the cache file exists with that content and the
    content is non-empty. -/
theorem check_cache_some_iff (cacheId : String → String) (fs : String → Option String) (href c : String) :
    BaseArticleParser.check_cache_for_content cacheId fs href = some c ↔
      fs (BaseArticleParser.cache_loc cacheId href) = some c ∧ c ≠ "" := by
  unfold BaseArticleParser.check_cache_for_content
  cases hfs : fs (BaseArticleParser.cache_loc cacheId href) with
  | none => simp
  | some content =>
    show (if content.length > 0 then some content else none) = some c ↔ _
    by_cases hlen : 0 < content.length
    · rw [if_pos hlen]
      constructor
      · intro h
        injection h with h
        subst h
        exact ⟨rfl, (string_length_pos_iff content).mp hlen⟩
      · intro ⟨h1, _⟩
        injection h1 with h1
        rw [h1]
    · rw [if_neg hlen]
      constructor
      · intro h; exact absurd h (by simp)
      · intro ⟨h1, h2⟩
        injection h1 with h1
        subst h1
        exact absurd ((string_length_pos_iff content).mpr h2) hlen

/-- A zero-size cache file is a miss: get_soup takes the network branch. -/
theorem check_cache_zero_miss (cacheId : String → String) (uas : Nat → String) (net : List Response)
    (fs : String → Option String) (href : String)
    (h : fs (BaseArticleParser.cache_loc cacheId href) = some ("")) :
    BaseArticleParser.get_soup cacheId uas net fs href =
      BaseArticleParser.fetch_and_cache cacheId uas net fs href := by
  have hnone : BaseArticleParser.check_cache_for_content cacheId fs href = none := by
    unfold BaseArticleParser.check_cache_for_content
    rw [h]
    rfl
  unfold BaseArticleParser.get_soup
  rw [hnone]

/-- C5: a cache entry is valid for _check_cache_for_content exactly when the
    cache file exists and has non-zero size, and an existing zero-size cache
    file is treated as a miss: get_soup then takes the network re-fetch
    branch (fetch_and_cache). -/
theorem check_cache_valid_iff (cacheId : String → String) (fs : String → Option String)
    (uas : Nat → String) (net : List Response) (href c : String) :
    (BaseArticleParser.check_cache_for_content cacheId fs href = some c ↔
      fs (BaseArticleParser.cache_loc cacheId href) = some c ∧ c ≠ "")
    ∧ (fs (BaseArticleParser.cache_loc cacheId href) = some ("") →
      BaseArticleParser.get_soup cacheId uas net fs href =
        BaseArticleParser.fetch_and_cache cacheId uas net fs href) :=
  ⟨check_cache_some_iff cacheId fs href c,
   fun h => check_cache_zero_miss cacheId uas net fs href h⟩

/-- Witness for check_cache_valid_iff on the all-zero-size filesystem. -/
theorem check_cache_valid_iff_witness :
    (BaseArticleParser.check_cache_for_content cid0 fsZero ("u") = some ("x") ↔
      fsZero (BaseArticleParser.cache_loc cid0 ("u")) = some ("x") ∧ ("x" : String) ≠ "")
    ∧ BaseArticleParser.get_soup cid0 ua0 [] fsZero ("u") =
        BaseArticleParser.fetch_and_cache cid0 ua0 [] fsZero ("u") :=
  ⟨(check_cache_valid_iff cid0 fsZero ua0 [] ("u") ("x")).1,
   (check_cache_valid_iff cid0 fsZero ua0 [] ("u") ("x")).2 rfl⟩

/-- Fetch the href u twice through get_soup: the first call against the
    empty filesystem with an origin returning an empty 200 body, the second
    call against the filesystem the first call produced, with the origin now
    returning body x.  Records (first content, second content, second call
    events). -/
def twiceFetch : Option (String × String × List NetEvent) :=
  (BaseArticleParser.get_soup cid0 ua0 [Response.mk 200 ("")] fsNone ("u")).bind (fun p =>
    (BaseArticleParser.get_soup cid0 ua0 [Response.mk 200 ("x")] p.2.1 ("u")).map (fun q => (p.1, q.1, q.2.2)))

/-- C4: counterexample.  The claim says fetching the same URL twice returns
    identical content both times and the second call performs no network
    request.  When the first successful fetch has an empty body, the body is
    cached as a zero-size file, which _check_cache_for_content treats as a
    miss: the second call issues a GET again and can return different
    content.  Here the first call returns the empty body, the second call
    performs a GET (its event list is non-empty) and returns x. -/
theorem get_soup_twice_counterexample :
    twiceFetch = some (("", "x", [NetEvent.get ("u") ("agent"), NetEvent.sleep 5]))
    ∧ ("" : String) ≠ "x" := by
  refine ⟨rfl, by decide⟩

/-- C4 (amended): provided the content returned by the first call is
    non-empty, fetching the same URL again returns identical content, leaves
    the filesystem unchanged and performs no network request: after a
    successful fetch the body is cached under the URL key, and while a
    non-empty cache entry exists for that key get_soup returns the cached
    content verbatim without issuing a GET. -/
theorem get_soup_cache_idempotent (cacheId : String → String) (uas uas2 : Nat → String)
    (net net2 : List Response) (fs fs2 : String → Option String) (href c : String) (evs : List NetEvent)
    (h : BaseArticleParser.get_soup cacheId uas net fs href = some (c, fs2, evs))
    (hc : c ≠ "") :
    BaseArticleParser.get_soup cacheId uas2 net2 fs2 href = some (c, fs2, []) := by
  have key : fs2 (BaseArticleParser.cache_loc cacheId href) = some c := by
    unfold BaseArticleParser.get_soup at h
    cases hch : BaseArticleParser.check_cache_for_content cacheId fs href with
    | some content =>
      rw [hch] at h
      injection h with h
      rw [Prod.ext_iff, Prod.ext_iff] at h
      obtain ⟨h1, h2, _⟩ := h
      cases h1
      cases h2
      exact ((check_cache_some_iff cacheId fs href _).mp hch).1
    | none =>
      rw [hch] at h
      unfold BaseArticleParser.fetch_and_cache at h
      cases hrl : BaseArticleParser.retryLoop href uas 0 net with
      | none => rw [hrl] at h; exact absurd h (by simp)
      | some p =>
        rw [hrl] at h
        injection h with h
        rw [Prod.ext_iff, Prod.ext_iff] at h
        obtain ⟨h1, h2, _⟩ := h
        cases h1
        cases h2
        simp [BaseArticleParser.cache_content]
  have hch2 : BaseArticleParser.check_cache_for_content cacheId fs2 href = some c :=
    (check_cache_some_iff cacheId fs2 href c).mpr ⟨key, hc⟩
  unfold BaseArticleParser.get_soup
  rw [hch2]

/-- Witness for get_soup_cache_idempotent: after a first fetch that cached
    the non-empty body, a second call returns the same content with no
    network events. -/
theorem get_soup_cache_idempotent_witness :
    BaseArticleParser.get_soup cid0 ua0 []
        (BaseArticleParser.cache_content cid0 fsNone ("u") ("body")) ("u") =
      some (("body"), BaseArticleParser.cache_content cid0 fsNone ("u") ("body"), []) :=
  get_soup_cache_idempotent cid0 ua0 ua0 [Response.mk 200 ("body")] [] fsNone
    (BaseArticleParser.cache_content cid0 fsNone ("u") ("body")) ("u") ("body")
    [NetEvent.get ("u") ("agent"), NetEvent.sleep 5] rfl (by decide)

/- Helper lemmas about the retry loop of get_soup. -/

/-- The retry loop returns none exactly when no response in net has status
    200: the loop is still retrying after any finite run of failures, so
    there is no maximum attempt count. -/
theorem retryLoop_none_iff (href : String) (uas : Nat → String) :
    ∀ (net : List Response) (i : Nat),
      BaseArticleParser.retryLoop href uas i net = none ↔ ∀ q ∈ net, q.status_code ≠ 200 := by
  intro net
  induction net with
  | nil => intro i; simp [BaseArticleParser.retryLoop]
  | cons x xs ih =>
    intro i
    by_cases hx : x.status_code = 200
    · simp [BaseArticleParser.retryLoop, hx]
    · simp [BaseArticleParser.retryLoop, hx, Option.map_eq_none', ih (i + 1)]

/-- When the retry loop returns, the returned response is the first one in
    net with status 200, every earlier response had a non-200 status, and
    the event trace is one GET with a fresh user agent followed by a sleep 5
    per attempt. -/
theorem retryLoop_some_spec (href : String) (uas : Nat → String) :
    ∀ (net : List Response) (i : Nat) (r : Response) (evs : List NetEvent),
      BaseArticleParser.retryLoop href uas i net = some (r, evs) →
      ∃ pre post, net = pre ++ r :: post
        ∧ (∀ q ∈ pre, q.status_code ≠ 200)
        ∧ r.status_code = 200
        ∧ evs = BaseArticleParser.attemptTraceFrom href uas i (pre.length + 1) := by
  intro net
  induction net with
  | nil => intro i r evs h; exact absurd h (by simp [BaseArticleParser.retryLoop])
  | cons x xs ih =>
    intro i r evs h
    by_cases hx : x.status_code = 200
    · rw [BaseArticleParser.retryLoop, if_pos hx] at h
      injection h with h
      rw [Prod.ext_iff] at h
      obtain ⟨h1, h2⟩ := h
      cases h1
      cases h2
      exact ⟨[], xs, rfl, by simp, hx, rfl⟩
    · rw [BaseArticleParser.retryLoop, if_neg hx] at h
      cases hrl : BaseArticleParser.retryLoop href uas (i + 1) xs with
      | none => rw [hrl] at h; exact absurd h (by simp)
      | some p =>
        rw [hrl] at h
        obtain ⟨r0, evs0⟩ := p
        simp only [Option.map_some', Option.some.injEq] at h
        rw [Prod.ext_iff] at h
        simp only at h
        obtain ⟨h1, h2⟩ := h
        obtain ⟨pre, post, heq, hpre, h200, hevs⟩ := ih (i + 1) r0 evs0 hrl
        cases h1
        cases h2
        refine ⟨x :: pre, post, by rw [heq, List.cons_append], ?_, h200, ?_⟩
        · intro q hq
          rcases List.mem_cons.mp hq with hq | hq
          · subst hq; exact hx
          · exact hpre q hq
        · rw [hevs]
          simp [BaseArticleParser.attemptTraceFrom]

/-- C7: on a cache miss, get_soup repeatedly issues a GET with a freshly
    randomized user agent, sleeping 5 time-units after each attempt, until a
    200 response is observed; it never returns from a net trace containing
    no 200 response (no maximum attempt count, and no body of a non-200
    response is ever returned or cached), and on success the body of the
    first 200 response is persisted to the cache under the URL key before
    being returned, the event trace being exactly one (GET, sleep 5) pair
    per attempt with the fresh user agents uas 0, uas 1, .... -/
theorem get_soup_retry_spec (cacheId : String → String) (uas : Nat → String) (net : List Response)
    (fs : String → Option String) (href : String)
    (hmiss : BaseArticleParser.check_cache_for_content cacheId fs href = none) :
    ((∀ q ∈ net, q.status_code ≠ 200) → BaseArticleParser.get_soup cacheId uas net fs href = none)
    ∧ (∀ (c : String) (fs2 : String → Option String) (evs : List NetEvent),
        BaseArticleParser.get_soup cacheId uas net fs href = some (c, fs2, evs) →
        ∃ pre post, net = pre ++ Response.mk 200 c :: post
          ∧ (∀ q ∈ pre, q.status_code ≠ 200)
          ∧ fs2 (BaseArticleParser.cache_loc cacheId href) = some c
          ∧ evs = BaseArticleParser.attemptTraceFrom href uas 0 (pre.length + 1)) := by
  constructor
  · intro hall
    unfold BaseArticleParser.get_soup
    rw [hmiss]
    unfold BaseArticleParser.fetch_and_cache
    rw [(retryLoop_none_iff href uas net 0).mpr hall]
  · intro c fs2 evs h
    unfold BaseArticleParser.get_soup at h
    rw [hmiss] at h
    unfold BaseArticleParser.fetch_and_cache at h
    cases hrl : BaseArticleParser.retryLoop href uas 0 net with
    | none => rw [hrl] at h; exact absurd h (by simp)
    | some p =>
      rw [hrl] at h
      obtain ⟨r, evs0⟩ := p
      injection h with h
      rw [Prod.ext_iff, Prod.ext_iff] at h
      simp only at h
      obtain ⟨h1, h2, h3⟩ := h
      obtain ⟨pre, post, heq, hpre, h200, hevs⟩ := retryLoop_some_spec href uas net 0 r evs0 hrl
      have hr : r = Response.mk 200 c := by
        obtain ⟨sc, tx⟩ := r
        simp only [Response.mk.injEq]
        exact ⟨h200, h1⟩
      refine ⟨pre, post, ?_, hpre, ?_, ?_⟩
      · rw [heq, hr]
      · rw [← h2]
        simp [BaseArticleParser.cache_content, h1]
      · rw [← h3, hevs]

/-- Witness for get_soup_retry_spec: with only non-200 responses the call
    never returns. -/
theorem get_soup_retry_spec_witness :
    BaseArticleParser.get_soup cid0 ua0 [Response.mk 404 ("n"), Response.mk 503 ("m")] fsNone ("u") = none :=
  (get_soup_retry_spec cid0 ua0 [Response.mk 404 ("n"), Response.mk 503 ("m")] fsNone ("u") rfl).1
    (by decide)

/- The parse layer: missing title versus missing body container. -/

theorem filterMap_id_map_some (l : List String) : (l.map some).filterMap id = l := by
  induction l with
  | nil => rfl
  | cons x xs ih => simp [ih]

/-- A document holding the BBC body container with two paragraphs but no
    title element at all. -/
def soupNoTitle : Soup :=
  Soup.mk (fun tag cls =>
    if tag = "div" && cls = "story-body__inner" then some (Element.mk ("") ["p1", "p2"]) else none)

/-- A document holding both a title element and the body container. -/
def soupFull : Soup :=
  Soup.mk (fun tag cls =>
    if tag = "h1" && cls = "story-body__h1" then some (Element.mk ("T") [])
    else if tag = "div" && cls = "story-body__inner" then some (Element.mk ("") ["p1"])
    else none)

/-- C6: counterexample.  The claim says a missing title is tolerated and
    parse still returns the joined paragraph text.  On a document whose body
    container holds paragraphs but which has no title element, get_title
    returns None and the join of [None] with the paragraph list raises
    TypeError: the parse attempt fails instead of returning the paragraphs. -/
theorem parse_missing_title_counterexample :
    BBCArticleParser.parse_soup soupNoTitle = Except.error PyError.typeError
    ∧ BBCArticleParser.get_title soupNoTitle = none
    ∧ BBCArticleParser.get_paragraphs soupNoTitle = Except.ok ["p1", "p2"]
    ∧ Except.error PyError.typeError ≠ (Except.ok ("p1 p2") : Except PyError String) := by
  refine ⟨rfl, rfl, rfl, fun hcontra => Except.noConfusion hcontra⟩

/-- C6 (amended): a missing title is NOT tolerated: when get_title finds no
    title element the join of [None] with the paragraph texts raises
    TypeError and the parse attempt fails; a missing body container is
    likewise a parse failure (AttributeError from get_paragraphs); parse
    succeeds exactly when both a title element and the body container are
    found, returning title and paragraphs joined by single spaces. -/
theorem parse_title_body_spec (soup : Soup) :
    (BBCArticleParser.get_title soup = none →
      ∀ ps, BBCArticleParser.get_paragraphs soup = Except.ok ps →
        BBCArticleParser.parse_soup soup = Except.error PyError.typeError)
    ∧ (soup.find ("div") ("story-body__inner") = none →
        BBCArticleParser.parse_soup soup = Except.error PyError.attributeError)
    ∧ (∀ t ps, BBCArticleParser.get_title soup = some t →
        BBCArticleParser.get_paragraphs soup = Except.ok ps →
        BBCArticleParser.parse_soup soup = Except.ok (String.intercalate (" ") (t :: ps))) := by
  refine ⟨?_, ?_, ?_⟩
  · intro ht ps hp
    unfold BBCArticleParser.parse_soup
    rw [hp, ht]
    unfold pyJoin
    simp
  · intro hd
    unfold BBCArticleParser.parse_soup BBCArticleParser.get_paragraphs
    rw [hd]
  · intro t ps ht hp
    unfold BBCArticleParser.parse_soup
    rw [hp]
    show pyJoin (" ") (BBCArticleParser.get_title soup :: ps.map some) = _
    rw [ht]
    unfold pyJoin
    rw [if_pos]
    · rw [show (some t :: ps.map some).filterMap id = t :: ps from by
        simp [filterMap_id_map_some]]
    · simp [List.all_eq_true]

/-- Witness for parse_title_body_spec on a document with both elements. -/
theorem parse_title_body_spec_witness :
    BBCArticleParser.parse_soup soupFull = Except.ok (String.intercalate (" ") (("T") :: ["p1"])) :=
  (parse_title_body_spec soupFull).2.2 ("T") ["p1"] rfl rfl

/- Source orchestration: fetch_new and the failed-href log. -/

/-- Characterization of the for-loop of fetch_new as a fold: starting from
    any accumulator it appends, in candidate order, the parsed articles of
    the non-blacklisted hrefs whose parse succeeds and the hrefs of the
    non-blacklisted candidates whose parse fails. -/
theorem fetch_fold_spec {α : Type} (parser_list : List (String × α)) (pbehave : α → String → Except PyError String)
    (blacklist : List String) :
    ∀ (hrefs : List String) (acc : List String × List String),
      hrefs.foldl (Source.fetch_step parser_list pbehave blacklist) acc =
        (acc.1 ++ hrefs.filterMap (fun h =>
            if Source.blacklisted blacklist h then none
            else Source.parse_article parser_list pbehave h),
         acc.2 ++ hrefs.filter (fun h =>
            !Source.blacklisted blacklist h
            && (Source.parse_article parser_list pbehave h).isNone)) := by
  intro hrefs
  induction hrefs with
  | nil => intro acc; simp
  | cons h hs ih =>
    intro acc
    rw [List.foldl_cons, ih]
    unfold Source.fetch_step
    by_cases hb : Source.blacklisted blacklist h
    · simp [hb]
    · cases hp : Source.parse_article parser_list pbehave h with
      | some a => simp [hb, hp]
      | none => simp [hb, hp]

/-- C8: for every list of candidate hrefs, fetch_new never propagates an
    exception caused by an individual parse failure: it returns ok, each
    failing (non-blacklisted) href is skipped and collected, and the
    collected list is appended, one href per line in order and never
    truncating, to the per-source failed-href log, all other log files being
    left untouched; a get_hrefs (link-discovery) failure is the only error
    propagated to the caller. -/
theorem fetch_new_spec {α : Type} (parser_list : List (String × α)) (pbehave : α → String → Except PyError String)
    (blacklist : List String) (name : String) (hrefs : List String) (logs : String → List String)
    (e : PyError) (f : String) :
    (Source.fetch_new parser_list pbehave blacklist name (Except.ok hrefs) logs =
      Except.ok
        (hrefs.filterMap (fun h =>
           if Source.blacklisted blacklist h then none
           else Source.parse_article parser_list pbehave h),
         Source.write_erroneous_article_hrefs name
           (hrefs.filter (fun h =>
              !Source.blacklisted blacklist h
              && (Source.parse_article parser_list pbehave h).isNone)) logs))
    ∧ (Source.write_erroneous_article_hrefs name
         (hrefs.filter (fun h =>
            !Source.blacklisted blacklist h
            && (Source.parse_article parser_list pbehave h).isNone)) logs)
        (Source.log_path name) =
        logs (Source.log_path name) ++ hrefs.filter (fun h =>
          !Source.blacklisted blacklist h
          && (Source.parse_article parser_list pbehave h).isNone)
    ∧ (f ≠ Source.log_path name →
        Source.write_erroneous_article_hrefs name
          (hrefs.filter (fun h =>
             !Source.blacklisted blacklist h
             && (Source.parse_article parser_list pbehave h).isNone)) logs f = logs f)
    ∧ Source.fetch_new parser_list pbehave blacklist name (Except.error e) logs = Except.error e := by
  refine ⟨?_, ?_, ?_, rfl⟩
  · have hfold := fetch_fold_spec parser_list pbehave blacklist hrefs ([], [])
    unfold Source.fetch_new
    simp only [hfold]
    simp
  · unfold Source.write_erroneous_article_hrefs
    rw [if_pos rfl]
  · intro hf
    unfold Source.write_erroneous_article_hrefs
    rw [if_neg hf]

/-- The parse behaviour used by the fetch_new witness: parser 0 succeeds on
    hrefs starting with good and fails otherwise. -/
def pb0 : Nat → String → Except PyError String :=
  fun _ h => if strContains h ("good") then Except.ok ("art") else Except.error PyError.typeError

/-- The log state used by the fetch_new witness. -/
def logs0 : String → List String := fun _ => ["old"]

/-- Witness for fetch_new_spec at a concrete rule list, blacklist and
    candidate list. -/
theorem fetch_new_spec_witness :
    Source.fetch_new [(("id"), 0)] pb0 [("bad")] ("S") (Except.ok ["goodid", "zbadid", "zid"]) logs0 =
      Except.ok
        ((["goodid", "zbadid", "zid"] : List String).filterMap (fun h =>
           if Source.blacklisted [("bad")] h then none
           else Source.parse_article [(("id"), 0)] pb0 h),
         Source.write_erroneous_article_hrefs ("S")
           ((["goodid", "zbadid", "zid"] : List String).filter (fun h =>
              !Source.blacklisted [("bad")] h
              && (Source.parse_article [(("id"), 0)] pb0 h).isNone)) logs0) :=
  (fetch_new_spec [(("id"), 0)] pb0 [("bad")] ("S") ["goodid", "zbadid", "zid"] logs0
    PyError.typeError ("other")).1

/-- C10: _read_erroneous_article_hrefs opens the per-source failed-href log
    in append mode and then attempts to read from that handle; a handle
    opened with mode a is not readable, so every call raises
    io.UnsupportedOperation regardless of the log contents, and no list of
    logged URLs is ever returned. -/
theorem read_erroneous_always_raises (name : String) (logs : String → List String) :
    Source.read_erroneous_article_hrefs name logs = Except.error PyError.unsupportedOperation := rfl

/-- Witness for read_erroneous_always_raises at a concrete source name and
    log state. -/
theorem read_erroneous_always_raises_witness :
    Source.read_erroneous_article_hrefs ("BBC") logs0 = Except.error PyError.unsupportedOperation :=
  read_erroneous_always_raises ("BBC") logs0
